import Mathlib

/-!
Shallow embedding of the promise-cache engine of `next-promise-cache`
(the `API` class: its `Map`-backed store, the `get` / `memo` request paths,
the verb handlers, `shouldUseCache`, `setCache`, `validate` and `invalidate`).

Modelling choices, each traceable to the source:
* The ES `Map<string, { promise, timestamp }>` is an insertion-ordered
  association list; `mapGet` / `mapSet` / `mapDelete` / `firstKey` mirror
  `Map.get`, `Map.set` (update in place when the key exists, append when it
  is new), `Map.delete` (a key occurs at most once) and
  `map.keys().next().value`.
* Promises are identified by numeric ids handed out in creation order; the
  cache machinery never inspects a promise's contents, only stores and
  returns the handle, so an id is a faithful stand-in for object identity.
* `typeof window === "undefined"` is an ambient boolean `isServer`;
  `new Date().getTime()` is an explicit `now : Int` parameter (milliseconds).
* A thrown exception is `Except.error`; `fetch` invocations are counted in
  `fetchCount`.  Network settlement runs the `.then(handleResp)` /
  `.catch(handleError)` chain, which never touches the store.
-/

namespace NPC

/-- A stored cache entry: the shared promise handle and the creation
timestamp (milliseconds), as in `{ promise, timestamp }`. -/
structure Entry where
  promise : Nat
  timestamp : Int
deriving Repr, DecidableEq

/-- The `Map<string, Entry>` backing store, in insertion order. -/
abbrev CacheMap := List (String × Entry)

/-- `Map.get`: the value at `k`, or `undefined`. -/
def mapGet (m : CacheMap) (k : String) : Option Entry :=
  match m with
  | [] => none
  | e :: rest => if e.1 = k then some e.2 else mapGet rest k

/-- `Map.has`. -/
def mapHas (m : CacheMap) (k : String) : Bool :=
  (mapGet m k).isSome

/-- `Map.delete`: removes the (unique) binding of `k`, keeping order. -/
def mapDelete (k : String) : CacheMap → CacheMap
  | [] => []
  | e :: rest => if e.1 = k then rest else e :: mapDelete k rest

/-- `Map.set`: updates in place when `k` is bound, else appends at the end. -/
def mapSet (k : String) (v : Entry) : CacheMap → CacheMap
  | [] => [(k, v)]
  | e :: rest => if e.1 = k then (k, v) :: rest else e :: mapSet k v rest

/-- `map.keys().next().value`: first key in iteration order, or `undefined`. -/
def firstKey (m : CacheMap) : Option String :=
  m.head?.map Prod.fst

/-- Constructor configuration: `defaultCacheTime` (seconds, default 0) and
`maxCacheSize` (default 200, `-1` = unbounded sentinel). `baseurl` and
`debug` do not influence cache behaviour and are omitted. -/
structure Config where
  defaultCacheTime : Int := 0
  maxCacheSize : Int := 200
deriving Repr, DecidableEq

/-- Outcome of a settled promise produced by the `get` pipeline. -/
inductive POutcome where
  | resolved
  | rejectedStatus (status : Nat)
deriving Repr, DecidableEq

/-- Mutable state of one `API` instance: the store, the number of `fetch`
invocations made so far, a fresh-promise counter, the outcomes of settled
promises, and the `_getCalls` debug counter. -/
structure APIState where
  store : CacheMap
  fetchCount : Nat
  nextPromise : Nat
  settled : List (Nat × POutcome)
  getCalls : Nat
deriving Repr, DecidableEq

/-- The state of a freshly constructed instance: `new Map()`, no calls. -/
def initialState : APIState :=
  { store := [], fetchCount := 0, nextPromise := 0, settled := [], getCalls := 0 }

/-- The five values of the declared `ResponseTypes` union type. -/
def ResponseTypes : List String :=
  ["json", "text", "blob", "arrayBuffer", "formData"]

/-- `[ validate](responseType)`: passes (returns `true`) exactly when the
string is in the literal list the code checks, which spells the fourth
option `"arraybuffer"`; otherwise the code throws. -/
def validate (responseType : String) : Bool :=
  ["json", "text", "blob", "arraybuffer", "formData"].contains responseType

/-- The message of the error `validate` throws. -/
def unrecognizedMsg : String :=
  "Unrecognized responseType. Options are json, text, blob, arrayBuffer or formData"

/-- `[ shouldUseCache](encodedPath, cacheTime)`: no entry → `false`;
on the server (`typeof window === "undefined"`) → `true`;
on the client → `now - value.timestamp < cacheTime * 1000`. -/
def shouldUseCache (isServer : Bool) (now : Int) (m : CacheMap)
    (encodedPath : String) (cacheTime : Int) : Bool :=
  match mapGet m encodedPath with
  | none => false
  | some value =>
    if isServer then true
    else decide (now - value.timestamp < cacheTime * 1000)

/-- `invalidate(key)`: `"*"` replaces the store with `new Map()`; otherwise
delete the key when present, else do nothing. -/
def invalidate (key : String) (m : CacheMap) : CacheMap :=
  if key = "*" then []
  else if mapHas m key then mapDelete key m
  else m

/-- `[ setCache](path, promise)`: purge a stale binding of `path`, evict the
first-inserted key when the store is full (`size === maxCacheSize`, bound
not the `-1` sentinel; `invalidate(undefined)` on an empty store is a
no-op), then insert with the current timestamp. -/
def setCache (cfg : Config) (now : Int) (path : String) (promiseId : Nat)
    (m : CacheMap) : CacheMap :=
  let m1 := invalidate path m
  let m2 :=
    if cfg.maxCacheSize ≠ -1 ∧ (m1.length : Int) = cfg.maxCacheSize then
      match firstKey m1 with
      | some k => invalidate k m1
      | none => m1
    else m1
  mapSet path ⟨promiseId, now⟩ m2

/-- `get(arg)`: resolve `cacheTime` (caller value or instance default) and
`responseType` (caller value or `"json"`, passed here already resolved);
`validate` throws before any other effect; bump the call counters; serve
`this[cache].get(path)?.promise` on a cache hit; otherwise start a `fetch`,
whose promise is registered in the store synchronously via `setCache`
before the function returns. Returns the promise handle (`none` models the
`undefined` of `?.` on a vanished entry). -/
def get (cfg : Config) (isServer : Bool) (now : Int) (pathName : String)
    (responseType : String) (cacheTime? : Option Int) (s : APIState) :
    Except String (Option Nat × APIState) :=
  let cacheTime := cacheTime?.getD cfg.defaultCacheTime
  let encodedPath := pathName
  if validate responseType = false then
    Except.error unrecognizedMsg
  else
    let s := { s with getCalls := s.getCalls + 1 }
    if shouldUseCache isServer now s.store encodedPath cacheTime then
      Except.ok ((mapGet s.store encodedPath).map Entry.promise, s)
    else
      let promiseId := s.nextPromise
      let store1 := setCache cfg now encodedPath promiseId s.store
      Except.ok (some promiseId,
        { s with
            store := store1
            fetchCount := s.fetchCount + 1
            nextPromise := s.nextPromise + 1 })

/-- `memo(key, fn, cacheTime)`: like `get` but without validation and with
the caller's thunk `fn()` in place of `fetch` (its promise gets a fresh id;
`fetchCount` counts only the cache layer's own `fetch` calls). -/
def memo (cfg : Config) (isServer : Bool) (now : Int) (key : String)
    (cacheTime? : Option Int) (s : APIState) : Option Nat × APIState :=
  let cacheTime := cacheTime?.getD cfg.defaultCacheTime
  let s := { s with getCalls := s.getCalls + 1 }
  let encodedPath := key
  if shouldUseCache isServer now s.store encodedPath cacheTime then
    ((mapGet s.store encodedPath).map Entry.promise, s)
  else
    let promiseId := s.nextPromise
    let store1 := setCache cfg now encodedPath promiseId s.store
    (some promiseId, { s with store := store1, nextPromise := s.nextPromise + 1 })

/-- `[ handler](method, pathName, opts)`: validates the response type, then
performs a fresh `fetch`; it never reads or writes `this[cache]`. Returns
the handler's own promise handle. -/
def handler (method : String) (responseType : String) (s : APIState) :
    Except String (Nat × APIState) :=
  let _ := method
  if validate responseType = false then
    Except.error unrecognizedMsg
  else
    Except.ok (s.nextPromise,
      { s with fetchCount := s.fetchCount + 1, nextPromise := s.nextPromise + 1 })

/-- `post(...)` forwards to the handler with method `"post"`. -/
def post : String → APIState → Except String (Nat × APIState) :=
  handler "post"

/-- `put(...)` forwards to the handler with method `"put"`. -/
def put : String → APIState → Except String (Nat × APIState) :=
  handler "put"

/-- `patch(...)` forwards to the handler with method `"patch"`. -/
def patch : String → APIState → Except String (Nat × APIState) :=
  handler "patch"

/-- `delete(...)` forwards to the handler with method `"delete"`. -/
def delete : String → APIState → Except String (Nat × APIState) :=
  handler "delete"

/-- `head(...)` forwards to the handler with method `"head"`. -/
def head : String → APIState → Except String (Nat × APIState) :=
  handler "head"

/-- `options(...)` forwards to the handler with method `"options"`. -/
def options : String → APIState → Except String (Nat × APIState) :=
  handler "options"

/-- `[ handleResp]`: a non-ok response throws
`NextPromiseCacheError("Server responded with status " + status, resp)`;
an ok response resolves with the parsed body. -/
def handleRespOutcome (respOk : Bool) (status : Nat) : POutcome :=
  if respOk then POutcome.resolved else POutcome.rejectedStatus status

/-- `[ handleError](e)`: rethrows the rejection unchanged. -/
def handleErrorRethrow (status : Nat) : POutcome :=
  POutcome.rejectedStatus status

/-- Settling the `fetch(...).then(handleResp).catch(handleError)` chain of a
`get`: `handleResp` first, and its throw goes through `handleError`. -/
def settleOutcome (respOk : Bool) (status : Nat) : POutcome :=
  match handleRespOutcome respOk status with
  | POutcome.resolved => POutcome.resolved
  | POutcome.rejectedStatus c => handleErrorRethrow c

/-- One externally observable operation on an instance. -/
inductive Op where
  | opGet (now : Int) (path responseType : String) (cacheTime? : Option Int)
  | opMemo (now : Int) (key : String) (cacheTime? : Option Int)
  | opInvalidate (key : String)
  | opVerb (method responseType : String)
  | opSettle (promiseId : Nat) (respOk : Bool) (status : Nat)
deriving Repr

/-- State transition for one operation. A `validate` throw happens before
any mutation, so the state is unchanged. Settlement runs only the
`handleResp` / `handleError` chain, which never touches the store. -/
def step (cfg : Config) (isServer : Bool) (s : APIState) : Op → APIState
  | Op.opGet now p rt ct? =>
    match get cfg isServer now p rt ct? s with
    | Except.ok (_, s1) => s1
    | Except.error _ => s
  | Op.opMemo now k ct? => (memo cfg isServer now k ct? s).2
  | Op.opInvalidate k => { s with store := invalidate k s.store }
  | Op.opVerb m rt =>
    match handler m rt s with
    | Except.ok (_, s1) => s1
    | Except.error _ => s
  | Op.opSettle pid respOk status =>
    { s with settled := (pid, settleOutcome respOk status) :: s.settled }

/-- Run a sequence of operations from a state. -/
def run (cfg : Config) (isServer : Bool) (s : APIState) : List Op → APIState
  | [] => s
  | op :: rest => run cfg isServer (step cfg isServer s op) rest

/-- Issue a batch of `get` calls for one key (each with its own clock value
and `cacheTime`), collecting the returned promise handles. Calls rejected
by `validate` return no handle and change nothing. -/
def getMany (cfg : Config) (isServer : Bool) (pathName responseType : String)
    (calls : List (Int × Option Int)) (s : APIState) :
    List (Option Nat) × APIState :=
  match calls with
  | [] => ([], s)
  | c :: rest =>
    match get cfg isServer c.1 pathName responseType c.2 s with
    | Except.error _ => getMany cfg isServer pathName responseType rest s
    | Except.ok (r, s1) =>
      let p := getMany cfg isServer pathName responseType rest s1
      (r :: p.1, p.2)

/-- Configuration of the FIFO scenario: `maxCacheSize = 10`. -/
def cfg10 : Config :=
  { defaultCacheTime := 0, maxCacheSize := 10 }

/-- The twelve keys `/users/1` .. `/users/12`. -/
def usersKeys : List String :=
  (List.range 12).map (fun i => "/users/" ++ toString (i + 1))

/-- Sequentially `get` each of the twelve keys (server context, so each
distinct key is a miss and is inserted). -/
def usersOps : List Op :=
  usersKeys.map (fun k => Op.opGet 0 k "json" none)

/-! ### Basic lemmas about the store operations -/

/-- Setting a key makes it retrievable with exactly the set value. -/
lemma mapGet_mapSet_self (k : String) (v : Entry) (m : CacheMap) :
    mapGet (mapSet k v m) k = some v := by
  induction m with
  | nil => simp [mapSet, mapGet]
  | cons e rest ih =>
    by_cases h : e.1 = k
    · simp [mapSet, h, mapGet]
    · simp [mapSet, h, mapGet, ih]

/-- `setCache` always leaves the inserted binding retrievable. -/
lemma mapGet_setCache_self (cfg : Config) (now : Int) (k : String) (pid : Nat)
    (m : CacheMap) :
    mapGet (setCache cfg now k pid m) k = some ⟨pid, now⟩ := by
  unfold setCache
  exact mapGet_mapSet_self k ⟨pid, now⟩ _

/-- A key with no binding maps to `none` exactly when no entry carries it. -/
lemma mapGet_eq_none_iff (m : CacheMap) (k : String) :
    mapGet m k = none ↔ ∀ e ∈ m, e.1 ≠ k := by
  induction m with
  | nil => simp [mapGet]
  | cons e rest ih =>
    by_cases h : e.1 = k
    · simp [mapGet, h]
    · simp [mapGet, h, ih]

/-- Deleting never lengthens the store. -/
lemma mapDelete_length_le (k : String) (m : CacheMap) :
    (mapDelete k m).length ≤ m.length := by
  induction m with
  | nil => simp [mapDelete]
  | cons e rest ih =>
    by_cases h : e.1 = k
    · simp [mapDelete, h]
    · simp only [mapDelete, h, if_false, List.length_cons]
      omega

/-- Invalidation never lengthens the store. -/
lemma invalidate_length_le (k : String) (m : CacheMap) :
    (invalidate k m).length ≤ m.length := by
  unfold invalidate
  by_cases h : k = "*"
  · simp [h]
  · by_cases h2 : mapHas m k = true
    · simp [h, h2, mapDelete_length_le]
    · simp [h, h2]

/-- Setting a key adds at most one entry. -/
lemma mapSet_length_le (k : String) (v : Entry) (m : CacheMap) :
    (mapSet k v m).length ≤ m.length + 1 := by
  induction m with
  | nil => simp [mapSet]
  | cons e rest ih =>
    by_cases h : e.1 = k
    · simp [mapSet, h]
    · simp [mapSet, h]
      omega

/-- Invalidating the first key in iteration order shrinks a nonempty store. -/
lemma invalidate_first_length (h : String × Entry) (t : CacheMap) :
    (invalidate h.1 (h :: t)).length ≤ t.length := by
  unfold invalidate
  by_cases hs : h.1 = "*"
  · simp [hs]
  · have hh : mapHas (h :: t) h.1 = true := by simp [mapHas, mapGet]
    simp [hs, hh, mapDelete]

/-- Invalidating an unbound, non-wildcard key is the identity. -/
lemma invalidate_absent (k : String) (m : CacheMap) (hk : k ≠ "*")
    (h : mapGet m k = none) : invalidate k m = m := by
  unfold invalidate
  simp [hk, mapHas, h]

/-- Setting an unbound key appends it at the end of iteration order. -/
lemma mapSet_absent (k : String) (v : Entry) (m : CacheMap)
    (h : mapGet m k = none) : mapSet k v m = m ++ [(k, v)] := by
  induction m with
  | nil => simp [mapSet]
  | cons e rest ih =>
    have h1 : ¬ e.1 = k := by
      intro hek
      simp [mapGet, hek] at h
    simp [mapGet, h1] at h
    simp [mapSet, h1, ih h]

/-- `setCache` on the wildcard key first clears the whole store (through
`invalidate("*")`), so the result is the single wildcard entry. -/
lemma setCache_star (cfg : Config) (now : Int) (pid : Nat) (m : CacheMap) :
    setCache cfg now "*" pid m = [("*", ⟨pid, now⟩)] := by
  unfold setCache invalidate
  simp [firstKey, mapSet]

/-! ### Lemmas about `shouldUseCache`, `get` and `getMany` -/

/-- A present entry is servable on the server, or on the client while the
elapsed time is below the window. -/
lemma shouldUseCache_of_valid (isServer : Bool) (now : Int) (m : CacheMap)
    (k : String) (ct : Int) (e : Entry) (he : mapGet m k = some e)
    (hok : isServer = true ∨ now - e.timestamp < ct * 1000) :
    shouldUseCache isServer now m k ct = true := by
  unfold shouldUseCache
  rw [he]
  cases isServer with
  | true => simp
  | false =>
    rcases hok with h | h
    · exact absurd h (by simp)
    · simp [h]

/-- An absent key is never servable. -/
lemma shouldUseCache_absent (isServer : Bool) (now : Int) (m : CacheMap)
    (k : String) (ct : Int) (h : mapGet m k = none) :
    shouldUseCache isServer now m k ct = false := by
  unfold shouldUseCache
  rw [h]

/-- Cache hit: `get` returns the stored promise and changes nothing but the
debug call counter. -/
lemma get_hit (cfg : Config) (isServer : Bool) (now : Int) (k rt : String)
    (ct? : Option Int) (s : APIState) (e : Entry)
    (hv : validate rt = true)
    (he : mapGet s.store k = some e)
    (hok : isServer = true ∨ now - e.timestamp < (ct?.getD cfg.defaultCacheTime) * 1000) :
    get cfg isServer now k rt ct? s =
      Except.ok (some e.promise, { s with getCalls := s.getCalls + 1 }) := by
  have hsc := shouldUseCache_of_valid isServer now s.store k
    (ct?.getD cfg.defaultCacheTime) e he hok
  simp [get, hv, hsc, he]

/-- Cache miss: `get` fetches, registers the fresh promise synchronously via
`setCache`, and returns it. -/
lemma get_miss (cfg : Config) (isServer : Bool) (now : Int) (k rt : String)
    (ct? : Option Int) (s : APIState)
    (hv : validate rt = true)
    (hnc : shouldUseCache isServer now s.store k (ct?.getD cfg.defaultCacheTime) = false) :
    get cfg isServer now k rt ct? s =
      Except.ok (some s.nextPromise,
        { s with
            store := setCache cfg now k s.nextPromise s.store
            fetchCount := s.fetchCount + 1
            nextPromise := s.nextPromise + 1
            getCalls := s.getCalls + 1 }) := by
  simp [get, hv, hnc]

/-- While an entry for `k` stays valid for every call in a batch, each call
returns its stored promise and the store, fetch count and promise counter
are untouched. -/
lemma getMany_hits (cfg : Config) (isServer : Bool) (k rt : String) (e : Entry)
    (hv : validate rt = true) :
    ∀ (calls : List (Int × Option Int)) (s : APIState),
      mapGet s.store k = some e →
      (∀ c ∈ calls,
        isServer = true ∨ c.1 - e.timestamp < (c.2.getD cfg.defaultCacheTime) * 1000) →
      (getMany cfg isServer k rt calls s).1 = calls.map (fun _ => some e.promise) ∧
      (getMany cfg isServer k rt calls s).2.store = s.store ∧
      (getMany cfg isServer k rt calls s).2.fetchCount = s.fetchCount ∧
      (getMany cfg isServer k rt calls s).2.nextPromise = s.nextPromise := by
  intro calls
  induction calls with
  | nil =>
    intro s he hok
    simp [getMany]
  | cons c rest ih =>
    intro s he hok
    have h1 : get cfg isServer c.1 k rt c.2 s =
        Except.ok (some e.promise, { s with getCalls := s.getCalls + 1 }) :=
      get_hit cfg isServer c.1 k rt c.2 s e hv he
        (hok c (List.mem_cons_self c rest))
    have ihs := ih { s with getCalls := s.getCalls + 1 } he
      (fun c' hc' => hok c' (List.mem_cons_of_mem c hc'))
    simp only [getMany, h1]
    exact ⟨by simp [ihs.1], by simp [ihs.2.1], by simp [ihs.2.2.1], by simp [ihs.2.2.2]⟩

/-! ### Size-bound preservation -/

/-- `setCache` with its two `let` bindings inlined. -/
lemma setCache_eq (cfg : Config) (now : Int) (path : String) (pid : Nat)
    (m : CacheMap) :
    setCache cfg now path pid m =
      mapSet path ⟨pid, now⟩
        (if cfg.maxCacheSize ≠ -1 ∧ ((invalidate path m).length : Int) = cfg.maxCacheSize then
          match firstKey (invalidate path m) with
          | some k => invalidate k (invalidate path m)
          | none => invalidate path m
        else invalidate path m) := rfl

/-- With a positive bound, one `setCache` keeps the store within it: the
stale binding is purged, the oldest entry is evicted when the store sits
exactly at the bound, and only then is one entry inserted. -/
lemma setCache_length_le (cfg : Config) (now : Int) (path : String) (pid : Nat)
    (m : CacheMap) (hmax : 1 ≤ cfg.maxCacheSize)
    (hm : (m.length : Int) ≤ cfg.maxCacheSize) :
    ((setCache cfg now path pid m).length : Int) ≤ cfg.maxCacheSize := by
  rw [setCache_eq]
  have h1 : (invalidate path m).length ≤ m.length := invalidate_length_le path m
  by_cases hc : cfg.maxCacheSize ≠ -1 ∧ ((invalidate path m).length : Int) = cfg.maxCacheSize
  · rw [if_pos hc]
    rcases hfk : invalidate path m with _ | ⟨e, t⟩
    · rw [hfk] at h1 hc
      simp only [List.length_nil, Nat.cast_zero] at hc
      omega
    · rw [hfk] at h1 hc
      have hf : firstKey (e :: t) = some e.1 := by simp [firstKey]
      rw [hf]
      dsimp only
      have h2 : (invalidate e.1 (e :: t)).length ≤ t.length :=
        invalidate_first_length e t
      have h3 := mapSet_length_le path ⟨pid, now⟩ (invalidate e.1 (e :: t))
      have h4 : (e :: t).length = t.length + 1 := by simp
      omega
  · rw [if_neg hc]
    have h3 := mapSet_length_le path ⟨pid, now⟩ (invalidate path m)
    have h5 : cfg.maxCacheSize ≠ -1 := by omega
    have h6 : ((invalidate path m).length : Int) ≠ cfg.maxCacheSize := by
      intro h
      exact hc ⟨h5, h⟩
    omega

/-- Every single operation preserves the size bound when the bound is at
least one. -/
lemma step_length_le (cfg : Config) (isServer : Bool) (s : APIState) (op : Op)
    (hmax : 1 ≤ cfg.maxCacheSize)
    (hs : (s.store.length : Int) ≤ cfg.maxCacheSize) :
    (((step cfg isServer s op).store.length : Int)) ≤ cfg.maxCacheSize := by
  cases op with
  | opGet now p rt ct? =>
    by_cases hv : validate rt = true
    · by_cases hsc : shouldUseCache isServer now s.store p (ct?.getD cfg.defaultCacheTime) = true
      · rcases hm : mapGet s.store p with _ | e
        · rw [shouldUseCache_absent isServer now s.store p _ hm] at hsc
          exact absurd hsc (by simp)
        · have hg := get_hit cfg isServer now p rt ct? s e hv hm (by
            unfold shouldUseCache at hsc
            rw [hm] at hsc
            cases isServer with
            | true => exact Or.inl rfl
            | false =>
              simp only [if_false, Bool.false_eq_true, decide_eq_true_eq] at hsc
              exact Or.inr hsc)
          simp [step, hg]
          exact hs
      · have hg := get_miss cfg isServer now p rt ct? s hv (by
          cases h : shouldUseCache isServer now s.store p (ct?.getD cfg.defaultCacheTime) with
          | false => rfl
          | true => exact absurd h hsc)
        simp only [step, hg]
        exact setCache_length_le cfg now p s.nextPromise s.store hmax hs
    · have hv2 : validate rt = false := by
        cases h : validate rt with
        | false => rfl
        | true => exact absurd h hv
      simp [step, get, hv2]
      exact hs
  | opMemo now k ct? =>
    simp only [step, memo]
    by_cases hsc : shouldUseCache isServer now s.store k (ct?.getD cfg.defaultCacheTime) = true
    · simp [hsc]
      exact hs
    · have hsc2 : shouldUseCache isServer now s.store k (ct?.getD cfg.defaultCacheTime) = false := by
        cases h : shouldUseCache isServer now s.store k (ct?.getD cfg.defaultCacheTime) with
        | false => rfl
        | true => exact absurd h hsc
      simp only [hsc2, Bool.false_eq_true, if_false]
      exact setCache_length_le cfg now k s.nextPromise s.store hmax hs
  | opInvalidate k =>
    simp only [step]
    have := invalidate_length_le k s.store
    omega
  | opVerb m rt =>
    by_cases hv : validate rt = true
    · simp [step, handler, hv]
      exact hs
    · have hv2 : validate rt = false := by
        cases h : validate rt with
        | false => rfl
        | true => exact absurd h hv
      simp [step, handler, hv2]
      exact hs
  | opSettle pid respOk status =>
    simp only [step]
    exact hs

/-- Running any operation sequence preserves the size bound. -/
lemma run_length_le (cfg : Config) (isServer : Bool) (hmax : 1 ≤ cfg.maxCacheSize) :
    ∀ (ops : List Op) (s : APIState),
      (s.store.length : Int) ≤ cfg.maxCacheSize →
      (((run cfg isServer s ops).store.length : Int)) ≤ cfg.maxCacheSize := by
  intro ops
  induction ops with
  | nil =>
    intro s hs
    simpa [run] using hs
  | cons op rest ih =>
    intro s hs
    exact ih (step cfg isServer s op) (step_length_le cfg isServer s op hmax hs)

/-! ### Deletion as filtering, under key uniqueness -/

/-- A filter that rejects nothing is the identity. -/
lemma filter_ne_eq_self (m : CacheMap) (k : String)
    (h : ∀ e ∈ m, e.1 ≠ k) :
    (m.filter fun e => e.1 ≠ k) = m := by
  induction m with
  | nil => simp
  | cons e rest ih =>
    have h1 : e.1 ≠ k := h e (List.mem_cons_self e rest)
    have h2 := ih (fun e' he' => h e' (List.mem_cons_of_mem e he'))
    rw [List.filter_cons_of_pos (by simp [h1]), h2]

/-- When each key is bound at most once (the `Map` invariant), deleting a
key is exactly filtering it out: every other entry stays, in order. -/
lemma mapDelete_eq_filter (k : String) :
    ∀ (m : CacheMap), (m.map Prod.fst).Nodup →
      mapDelete k m = m.filter fun e => e.1 ≠ k := by
  intro m
  induction m with
  | nil => simp [mapDelete]
  | cons e rest ih =>
    intro hnd
    simp only [List.map_cons, List.nodup_cons] at hnd
    by_cases h : e.1 = k
    · have hrest : ∀ e' ∈ rest, e'.1 ≠ k := by
        intro e' he' hk
        apply hnd.1
        have hmem : e'.1 ∈ List.map Prod.fst rest := List.mem_map_of_mem Prod.fst he'
        rw [hk, ← h] at hmem
        exact hmem
      show (if e.1 = k then rest else e :: mapDelete k rest) = _
      rw [if_pos h, List.filter_cons_of_neg (by simp [h])]
      exact (filter_ne_eq_self rest k hrest).symm
    · show (if e.1 = k then rest else e :: mapDelete k rest) = _
      rw [if_neg h, List.filter_cons_of_pos (by simp [h]), ih hnd.2]

/-! ### Claim theorems -/

/-- C1 (amended): single-flight deduplication holds whenever each later
concurrent caller (arriving before the first call's operation settles, so
no settle step intervenes) finds the entry valid under the validity
policy — always in server context, and in client context exactly when the
elapsed time since the first call is below the effective `cacheTime`
window. The first `get` on a fresh key registers its promise in the store
synchronously via `setCache`; every later call then returns the identical
promise, performs no further fetch, and leaves the store unchanged. -/
theorem c1_single_flight_amended
    (cfg : Config) (isServer : Bool) (now0 : Int) (k rt : String)
    (ct0? : Option Int) (s : APIState) (calls : List (Int × Option Int))
    (hv : validate rt = true)
    (habs : mapGet s.store k = none)
    (hok : ∀ c ∈ calls,
      isServer = true ∨ c.1 - now0 < (c.2.getD cfg.defaultCacheTime) * 1000) :
    get cfg isServer now0 k rt ct0? s =
      Except.ok (some s.nextPromise,
        { s with
            store := setCache cfg now0 k s.nextPromise s.store
            fetchCount := s.fetchCount + 1
            nextPromise := s.nextPromise + 1
            getCalls := s.getCalls + 1 }) ∧
    (getMany cfg isServer k rt calls
        { s with
            store := setCache cfg now0 k s.nextPromise s.store
            fetchCount := s.fetchCount + 1
            nextPromise := s.nextPromise + 1
            getCalls := s.getCalls + 1 }).1 =
      calls.map (fun _ => some s.nextPromise) ∧
    (getMany cfg isServer k rt calls
        { s with
            store := setCache cfg now0 k s.nextPromise s.store
            fetchCount := s.fetchCount + 1
            nextPromise := s.nextPromise + 1
            getCalls := s.getCalls + 1 }).2.store =
      setCache cfg now0 k s.nextPromise s.store ∧
    (getMany cfg isServer k rt calls
        { s with
            store := setCache cfg now0 k s.nextPromise s.store
            fetchCount := s.fetchCount + 1
            nextPromise := s.nextPromise + 1
            getCalls := s.getCalls + 1 }).2.fetchCount = s.fetchCount + 1 := by
  have hmiss := get_miss cfg isServer now0 k rt ct0? s hv
    (shouldUseCache_absent isServer now0 s.store k (ct0?.getD cfg.defaultCacheTime) habs)
  have hget1 : mapGet (setCache cfg now0 k s.nextPromise s.store) k =
      some ⟨s.nextPromise, now0⟩ :=
    mapGet_setCache_self cfg now0 k s.nextPromise s.store
  have hm := getMany_hits cfg isServer k rt ⟨s.nextPromise, now0⟩ hv calls
    { s with
        store := setCache cfg now0 k s.nextPromise s.store
        fetchCount := s.fetchCount + 1
        nextPromise := s.nextPromise + 1
        getCalls := s.getCalls + 1 }
    hget1 hok
  exact ⟨hmiss, hm.1, hm.2.1, hm.2.2.1⟩

/-- C1 witness: server context, a fresh key `/u`, two later concurrent
calls; both receive the first call's promise 0 and the single fetch stays
the only one. -/
theorem c1_single_flight_witness :
    (getMany { defaultCacheTime := 0, maxCacheSize := 200 } true "/u" "json"
        [(100, none), (200, none)]
        { store := [("/u", ⟨0, 0⟩)], fetchCount := 1, nextPromise := 1,
          settled := [], getCalls := 1 }).1 = [some 0, some 0] ∧
    (getMany { defaultCacheTime := 0, maxCacheSize := 200 } true "/u" "json"
        [(100, none), (200, none)]
        { store := [("/u", ⟨0, 0⟩)], fetchCount := 1, nextPromise := 1,
          settled := [], getCalls := 1 }).2.fetchCount = 1 :=
  ⟨(c1_single_flight_amended { defaultCacheTime := 0, maxCacheSize := 200 }
      true 0 "/u" "json" none initialState [(100, none), (200, none)]
      (by decide) (by decide) (fun c _ => Or.inl rfl)).2.1,
   (c1_single_flight_amended { defaultCacheTime := 0, maxCacheSize := 200 }
      true 0 "/u" "json" none initialState [(100, none), (200, none)]
      (by decide) (by decide) (fun c _ => Or.inl rfl)).2.2.2⟩

/-- C1 counterexample: in client context with effective `cacheTime` 0 (the
constructor default), two concurrent `get("/u")` calls issued at the same
instant — before anything settles — perform two fetches and receive two
distinct promises (ids 0 and 1), not exactly one fetch with an identical
promise as the claim states. -/
theorem c1_single_flight_counterexample :
    (getMany { defaultCacheTime := 0, maxCacheSize := 200 } false "/u" "json"
        [(0, none), (0, none)] initialState).2.fetchCount = 2 ∧
    (getMany { defaultCacheTime := 0, maxCacheSize := 200 } false "/u" "json"
        [(0, none), (0, none)] initialState).1 = [some 0, some 1] ∧
    ¬ (getMany { defaultCacheTime := 0, maxCacheSize := 200 } false "/u" "json"
        [(0, none), (0, none)] initialState).2.fetchCount = 1 := by
  decide

/-- C2 (amended): for every instance whose `maxCacheSize` is at least 1,
no sequence of operations (`get`, `memo`, `invalidate`, verb handlers,
settlements) ever pushes the store's entry count above `maxCacheSize`. -/
theorem c2_size_bound_amended (cfg : Config) (isServer : Bool) (ops : List Op)
    (hmax : 1 ≤ cfg.maxCacheSize) :
    (((run cfg isServer initialState ops).store.length : Int)) ≤ cfg.maxCacheSize :=
  run_length_le cfg isServer hmax ops initialState
    (by simp only [initialState, List.length_nil, Nat.cast_zero]; omega)

/-- C2 witness: bound 1, two `get`s of distinct keys; the store stays at
one entry. -/
theorem c2_size_bound_witness :
    (((run { defaultCacheTime := 0, maxCacheSize := 1 } true initialState
        [Op.opGet 0 "/a" "json" none, Op.opGet 0 "/b" "json" none]).store.length : Int)) ≤ 1 :=
  c2_size_bound_amended { defaultCacheTime := 0, maxCacheSize := 1 } true
    [Op.opGet 0 "/a" "json" none, Op.opGet 0 "/b" "json" none] (by decide)

/-- C2 counterexample: `maxCacheSize = 0` is not the `-1` sentinel, yet a
single `get` leaves one entry in the store — the eviction guard tests
`size === maxCacheSize` before inserting, which never fires at size 0
against capacity 0 with an empty store, wait: it fires but evicts from an
empty store, a no-op — so the bound 0 is exceeded. -/
theorem c2_size_bound_counterexample :
    ({ defaultCacheTime := 0, maxCacheSize := 0 } : Config).maxCacheSize ≠ -1 ∧
    ¬ (((run { defaultCacheTime := 0, maxCacheSize := 0 } true initialState
        [Op.opGet 0 "/a" "json" none]).store.length : Int)) ≤
      ({ defaultCacheTime := 0, maxCacheSize := 0 } : Config).maxCacheSize := by
  decide

/-- C3: in server context (`typeof window === "undefined"`), whenever an
entry exists for a key, `get` — for every clock value and every
caller-supplied `cacheTime` — returns the stored promise and changes
neither the store (hence no timestamp refresh) nor the fetch count; only
the debug call counter moves. -/
theorem c3_server_mode_permanence (cfg : Config) (now : Int) (k rt : String)
    (ct? : Option Int) (s : APIState) (e : Entry)
    (hv : validate rt = true)
    (he : mapGet s.store k = some e) :
    get cfg true now k rt ct? s =
      Except.ok (some e.promise, { s with getCalls := s.getCalls + 1 }) :=
  get_hit cfg true now k rt ct? s e hv he (Or.inl rfl)

/-- C3 witness: an entry created at time 0 is still served at time
1000000000 with `cacheTime = 0`. -/
theorem c3_server_mode_permanence_witness :
    get { defaultCacheTime := 0, maxCacheSize := 200 } true 1000000000 "/k"
        "json" (some 0)
        { store := [("/k", ⟨7, 0⟩)], fetchCount := 1, nextPromise := 8,
          settled := [], getCalls := 1 } =
      Except.ok (some 7,
        { store := [("/k", ⟨7, 0⟩)], fetchCount := 1, nextPromise := 8,
          settled := [], getCalls := 2 }) :=
  c3_server_mode_permanence { defaultCacheTime := 0, maxCacheSize := 200 }
    1000000000 "/k" "json" (some 0)
    { store := [("/k", ⟨7, 0⟩)], fetchCount := 1, nextPromise := 8,
      settled := [], getCalls := 1 } ⟨7, 0⟩ (by decide) (by decide)

/-- C4: in client context, an existing entry is servable exactly when
`now - entry.timestamp < cacheTime * 1000` for the effective `cacheTime`
(caller-supplied or the instance default); when valid, `get` serves the
stored promise untouched, when invalid it performs a fresh fetch; with an
effective window of 0 (and a non-regressing clock) the entry is never
valid, so every request refetches. -/
theorem c4_client_mode_validity (cfg : Config) (now : Int) (k rt : String)
    (ct? : Option Int) (s : APIState) (e : Entry)
    (hv : validate rt = true)
    (he : mapGet s.store k = some e) :
    (shouldUseCache false now s.store k (ct?.getD cfg.defaultCacheTime) = true ↔
      now - e.timestamp < (ct?.getD cfg.defaultCacheTime) * 1000) ∧
    (now - e.timestamp < (ct?.getD cfg.defaultCacheTime) * 1000 →
      get cfg false now k rt ct? s =
        Except.ok (some e.promise, { s with getCalls := s.getCalls + 1 })) ∧
    (¬ now - e.timestamp < (ct?.getD cfg.defaultCacheTime) * 1000 →
      get cfg false now k rt ct? s =
        Except.ok (some s.nextPromise,
          { s with
              store := setCache cfg now k s.nextPromise s.store
              fetchCount := s.fetchCount + 1
              nextPromise := s.nextPromise + 1
              getCalls := s.getCalls + 1 })) ∧
    (ct?.getD cfg.defaultCacheTime = 0 → e.timestamp ≤ now →
      shouldUseCache false now s.store k (ct?.getD cfg.defaultCacheTime) = false) := by
  have hiff : shouldUseCache false now s.store k (ct?.getD cfg.defaultCacheTime) = true ↔
      now - e.timestamp < (ct?.getD cfg.defaultCacheTime) * 1000 := by
    unfold shouldUseCache
    rw [he]
    simp
  refine ⟨hiff, ?_, ?_, ?_⟩
  · intro h
    exact get_hit cfg false now k rt ct? s e hv he (Or.inr h)
  · intro h
    apply get_miss cfg false now k rt ct? s hv
    cases hb : shouldUseCache false now s.store k (ct?.getD cfg.defaultCacheTime) with
    | false => rfl
    | true => exact absurd (hiff.1 hb) h
  · intro h0 hts
    cases hb : shouldUseCache false now s.store k (ct?.getD cfg.defaultCacheTime) with
    | false => rfl
    | true =>
      have := hiff.1 hb
      rw [h0] at this
      omega

/-- C4 witness: entry created at 0, request at 500 with a 1-second window
is a hit; with the default 0 window it is not servable. -/
theorem c4_client_mode_validity_witness :
    (shouldUseCache false 500
        [("/k", ⟨3, 0⟩)] "/k" ((some 1).getD
          ({ defaultCacheTime := 0, maxCacheSize := 200 } : Config).defaultCacheTime) = true ↔
      (500 : Int) - (⟨3, 0⟩ : Entry).timestamp <
        ((some 1).getD
          ({ defaultCacheTime := 0, maxCacheSize := 200 } : Config).defaultCacheTime) * 1000) ∧
    get { defaultCacheTime := 0, maxCacheSize := 200 } false 500 "/k" "json" (some 1)
        { store := [("/k", ⟨3, 0⟩)], fetchCount := 1, nextPromise := 4,
          settled := [], getCalls := 1 } =
      Except.ok (some 3,
        { store := [("/k", ⟨3, 0⟩)], fetchCount := 1, nextPromise := 4,
          settled := [], getCalls := 2 }) :=
  ⟨(c4_client_mode_validity { defaultCacheTime := 0, maxCacheSize := 200 }
      500 "/k" "json" (some 1)
      { store := [("/k", ⟨3, 0⟩)], fetchCount := 1, nextPromise := 4,
        settled := [], getCalls := 1 } ⟨3, 0⟩ (by decide) (by decide)).1,
   (c4_client_mode_validity { defaultCacheTime := 0, maxCacheSize := 200 }
      500 "/k" "json" (some 1)
      { store := [("/k", ⟨3, 0⟩)], fetchCount := 1, nextPromise := 4,
        settled := [], getCalls := 1 } ⟨3, 0⟩ (by decide) (by decide)).2.1
    (by decide)⟩

/-- C5: FIFO bounded eviction. Generally: inserting a fresh key into a
store sitting exactly at a non-sentinel capacity evicts precisely the
first-inserted entry and appends the new one at the end. Concretely: with
`maxCacheSize = 10`, twelve sequential misses `/users/1` .. `/users/12`
leave exactly `/users/3` .. `/users/12`, with `/users/3` first in
iteration order. -/
theorem c5_fifo_bounded_eviction :
    (∀ (cfg : Config) (now : Int) (pid : Nat) (e : String × Entry)
        (t : CacheMap) (k : String),
      cfg.maxCacheSize ≠ -1 →
      k ≠ "*" → e.1 ≠ "*" →
      (((e :: t).length : Int)) = cfg.maxCacheSize →
      mapGet (e :: t) k = none →
      setCache cfg now k pid (e :: t) = t ++ [(k, ⟨pid, now⟩)]) ∧
    (run cfg10 true initialState usersOps).store.map Prod.fst =
      ["/users/3", "/users/4", "/users/5", "/users/6", "/users/7",
       "/users/8", "/users/9", "/users/10", "/users/11", "/users/12"] ∧
    firstKey (run cfg10 true initialState usersOps).store = some "/users/3" := by
  refine ⟨?_, by decide, by decide⟩
  intro cfg now pid e t k hsent hkstar hestar hlen habs
  have hek : ¬ e.1 = k := by
    intro h
    simp [mapGet, h] at habs
  have habst : mapGet t k = none := by
    simpa [mapGet, hek] using habs
  have hknotstar : invalidate k (e :: t) = e :: t :=
    invalidate_absent k (e :: t) hkstar habs
  have hev : invalidate e.1 (e :: t) = t := by
    unfold invalidate
    rw [if_neg hestar]
    have hh : mapHas (e :: t) e.1 = true := by simp [mapHas, mapGet]
    rw [if_pos hh]
    simp [mapDelete]
  rw [setCache_eq, hknotstar]
  rw [if_pos ⟨hsent, hlen⟩]
  have hf : firstKey (e :: t) = some e.1 := by simp [firstKey]
  rw [hf]
  dsimp only
  rw [hev]
  exact mapSet_absent k ⟨pid, now⟩ t habst

/-- C5 witness: capacity 2, store `[/a, /b]` at capacity, inserting `/c`
evicts `/a` and appends `/c`. -/
theorem c5_fifo_bounded_eviction_witness :
    setCache { defaultCacheTime := 0, maxCacheSize := 2 } 9 "/c" 5
        [("/a", ⟨0, 0⟩), ("/b", ⟨1, 0⟩)] =
      [("/b", ⟨1, 0⟩), ("/c", ⟨5, 9⟩)] :=
  c5_fifo_bounded_eviction.1 { defaultCacheTime := 0, maxCacheSize := 2 } 9 5
    ("/a", ⟨0, 0⟩) [("/b", ⟨1, 0⟩)] "/c" (by decide) (by decide) (by decide)
    (by decide) (by decide)

/-- C6: invalidation contract. For a non-wildcard key (under the `Map`
invariant that keys are unique), `invalidate` is exactly "filter that key
out": the entry for `k` goes, every other entry stays in its relative
order — and when `k` is absent the store is returned identical (no error:
the function is total). `invalidate("*")` empties the store. -/
theorem c6_invalidation_contract (m : CacheMap) (k : String)
    (hnd : (m.map Prod.fst).Nodup) :
    (k ≠ "*" → invalidate k m = m.filter fun e => e.1 ≠ k) ∧
    (k ≠ "*" → mapGet m k = none → invalidate k m = m) ∧
    invalidate "*" m = [] := by
  refine ⟨?_, ?_, ?_⟩
  · intro hk
    unfold invalidate
    rw [if_neg hk]
    by_cases hh : mapHas m k = true
    · rw [if_pos hh]
      exact mapDelete_eq_filter k m hnd
    · have hg : mapGet m k = none := by
        unfold mapHas at hh
        cases hx : mapGet m k
        · rfl
        · rw [hx] at hh
          simp at hh
      rw [if_neg hh]
      exact (filter_ne_eq_self m k ((mapGet_eq_none_iff m k).1 hg)).symm
  · intro hk hg
    exact invalidate_absent k m hk hg
  · unfold invalidate
    simp

/-- C6 witness: removing the present key `/a` keeps `/b` and `/c` in
order; removing the absent `/z` is a no-op; the wildcard empties. -/
theorem c6_invalidation_contract_witness :
    invalidate "/a" [("/b", ⟨0, 0⟩), ("/a", ⟨1, 0⟩), ("/c", ⟨2, 0⟩)] =
      [("/b", ⟨0, 0⟩), ("/c", ⟨2, 0⟩)] ∧
    invalidate "/z" [("/b", ⟨0, 0⟩), ("/a", ⟨1, 0⟩), ("/c", ⟨2, 0⟩)] =
      [("/b", ⟨0, 0⟩), ("/a", ⟨1, 0⟩), ("/c", ⟨2, 0⟩)] ∧
    invalidate "*" [("/b", ⟨0, 0⟩), ("/a", ⟨1, 0⟩), ("/c", ⟨2, 0⟩)] = [] :=
  ⟨(c6_invalidation_contract
      [("/b", ⟨0, 0⟩), ("/a", ⟨1, 0⟩), ("/c", ⟨2, 0⟩)] "/a" (by decide)).1
    (by decide),
   (c6_invalidation_contract
      [("/b", ⟨0, 0⟩), ("/a", ⟨1, 0⟩), ("/c", ⟨2, 0⟩)] "/z" (by decide)).2.1
    (by decide) (by decide),
   (c6_invalidation_contract
      [("/b", ⟨0, 0⟩), ("/a", ⟨1, 0⟩), ("/c", ⟨2, 0⟩)] "/a" (by decide)).2.2⟩

/-- C7 (code bug): the declared `ResponseTypes` union — and the thrown
error message itself — spell the fourth option `arrayBuffer`, but the
runtime check in `validate` tests for lowercase `"arraybuffer"`. So the
documented value `"arrayBuffer"` is rejected ("Unrecognized responseType"
before any fetch, state unchanged), while the undocumented `"arraybuffer"`
passes: the raises-iff-unrecognized claim fails at `"arrayBuffer"`. -/
theorem c7_arrayBuffer_rejected_bug :
    "arrayBuffer" ∈ ResponseTypes ∧
    validate "arrayBuffer" = false ∧
    validate "arraybuffer" = true ∧
    "arraybuffer" ∉ ResponseTypes ∧
    get { defaultCacheTime := 0, maxCacheSize := 200 } true 0 "/a"
        "arrayBuffer" none initialState = Except.error unrecognizedMsg ∧
    step { defaultCacheTime := 0, maxCacheSize := 200 } true initialState
        (Op.opGet 0 "/a" "arrayBuffer" none) = initialState :=
  ⟨by decide, by decide, by decide, by decide, rfl, rfl⟩

/-- C8: failure-propagation idempotence. A fresh `get` registers promise
`p`; a non-ok response settles `p` through `handleResp`/`handleError`,
whose rejection carries the transport status and is rethrown, and whose
settlement leaves the store untouched (no purge of the failed entry).
Every later request that finds the entry valid (server context, or client
within the window) therefore receives the same stored promise `p` — hence
the same failure with the same status — and triggers no retry fetch, until
the entry is replaced by expiration, invalidation or eviction. -/
theorem c8_failure_propagation_idempotence
    (cfg : Config) (isServer : Bool) (now0 : Int) (k rt : String)
    (ct0? : Option Int) (s : APIState) (status : Nat)
    (calls : List (Int × Option Int))
    (hv : validate rt = true)
    (habs : mapGet s.store k = none)
    (hok : ∀ c ∈ calls,
      isServer = true ∨ c.1 - now0 < (c.2.getD cfg.defaultCacheTime) * 1000) :
    get cfg isServer now0 k rt ct0? s =
      Except.ok (some s.nextPromise,
        { s with
            store := setCache cfg now0 k s.nextPromise s.store
            fetchCount := s.fetchCount + 1
            nextPromise := s.nextPromise + 1
            getCalls := s.getCalls + 1 }) ∧
    settleOutcome false status = POutcome.rejectedStatus status ∧
    (step cfg isServer
        { s with
            store := setCache cfg now0 k s.nextPromise s.store
            fetchCount := s.fetchCount + 1
            nextPromise := s.nextPromise + 1
            getCalls := s.getCalls + 1 }
        (Op.opSettle s.nextPromise false status)).store =
      setCache cfg now0 k s.nextPromise s.store ∧
    (getMany cfg isServer k rt calls
        (step cfg isServer
          { s with
              store := setCache cfg now0 k s.nextPromise s.store
              fetchCount := s.fetchCount + 1
              nextPromise := s.nextPromise + 1
              getCalls := s.getCalls + 1 }
          (Op.opSettle s.nextPromise false status))).1 =
      calls.map (fun _ => some s.nextPromise) ∧
    (getMany cfg isServer k rt calls
        (step cfg isServer
          { s with
              store := setCache cfg now0 k s.nextPromise s.store
              fetchCount := s.fetchCount + 1
              nextPromise := s.nextPromise + 1
              getCalls := s.getCalls + 1 }
          (Op.opSettle s.nextPromise false status))).2.fetchCount =
      s.fetchCount + 1 := by
  have hmiss := get_miss cfg isServer now0 k rt ct0? s hv
    (shouldUseCache_absent isServer now0 s.store k (ct0?.getD cfg.defaultCacheTime) habs)
  have hget1 : mapGet (setCache cfg now0 k s.nextPromise s.store) k =
      some ⟨s.nextPromise, now0⟩ :=
    mapGet_setCache_self cfg now0 k s.nextPromise s.store
  have hm := getMany_hits cfg isServer k rt ⟨s.nextPromise, now0⟩ hv calls
    (step cfg isServer
      { s with
          store := setCache cfg now0 k s.nextPromise s.store
          fetchCount := s.fetchCount + 1
          nextPromise := s.nextPromise + 1
          getCalls := s.getCalls + 1 }
      (Op.opSettle s.nextPromise false status))
    hget1 hok
  exact ⟨hmiss, rfl, rfl, hm.1, hm.2.2.1⟩

/-- C8 witness: a 404 settlement of promise 0 for `/f` leaves the entry in
place and a later server-context request returns the same promise 0
without a second fetch. -/
theorem c8_failure_propagation_idempotence_witness :
    settleOutcome false 404 = POutcome.rejectedStatus 404 ∧
    (getMany { defaultCacheTime := 0, maxCacheSize := 200 } true "/f" "json"
        [(50, none)]
        { store := [("/f", ⟨0, 0⟩)], fetchCount := 1, nextPromise := 1,
          settled := [(0, POutcome.rejectedStatus 404)], getCalls := 1 }).1 =
      [some 0] ∧
    (getMany { defaultCacheTime := 0, maxCacheSize := 200 } true "/f" "json"
        [(50, none)]
        { store := [("/f", ⟨0, 0⟩)], fetchCount := 1, nextPromise := 1,
          settled := [(0, POutcome.rejectedStatus 404)], getCalls := 1 }).2.fetchCount = 1 :=
  ⟨(c8_failure_propagation_idempotence
      { defaultCacheTime := 0, maxCacheSize := 200 } true 0 "/f" "json" none
      initialState 404 [(50, none)] (by decide) (by decide)
      (fun c _ => Or.inl rfl)).2.1,
   (c8_failure_propagation_idempotence
      { defaultCacheTime := 0, maxCacheSize := 200 } true 0 "/f" "json" none
      initialState 404 [(50, none)] (by decide) (by decide)
      (fun c _ => Or.inl rfl)).2.2.2.1,
   (c8_failure_propagation_idempotence
      { defaultCacheTime := 0, maxCacheSize := 200 } true 0 "/f" "json" none
      initialState 404 [(50, none)] (by decide) (by decide)
      (fun c _ => Or.inl rfl)).2.2.2.2⟩

/-- C9: every non-idempotent verb call (`post`, `put`, `patch`, `delete`,
`head`, `options`) that passes response-type validation performs exactly
one fresh fetch and returns a fresh promise, while the store field of the
state is carried through identically — nothing is stored, invalidated or
deduplicated. -/
theorem c9_verbs_bypass_cache (rt : String) (s : APIState)
    (hv : validate rt = true) :
    post rt s = Except.ok (s.nextPromise,
      { s with fetchCount := s.fetchCount + 1, nextPromise := s.nextPromise + 1 }) ∧
    put rt s = Except.ok (s.nextPromise,
      { s with fetchCount := s.fetchCount + 1, nextPromise := s.nextPromise + 1 }) ∧
    patch rt s = Except.ok (s.nextPromise,
      { s with fetchCount := s.fetchCount + 1, nextPromise := s.nextPromise + 1 }) ∧
    delete rt s = Except.ok (s.nextPromise,
      { s with fetchCount := s.fetchCount + 1, nextPromise := s.nextPromise + 1 }) ∧
    head rt s = Except.ok (s.nextPromise,
      { s with fetchCount := s.fetchCount + 1, nextPromise := s.nextPromise + 1 }) ∧
    options rt s = Except.ok (s.nextPromise,
      { s with fetchCount := s.fetchCount + 1, nextPromise := s.nextPromise + 1 }) := by
  have h : ∀ method : String, handler method rt s =
      Except.ok (s.nextPromise,
        { s with fetchCount := s.fetchCount + 1, nextPromise := s.nextPromise + 1 }) := by
    intro method
    simp [handler, hv]
  exact ⟨h "post", h "put", h "patch", h "delete", h "head", h "options"⟩

/-- C9 witness: a `post` and a `delete` on a loaded store leave its
contents identical while each performs its own fetch. -/
theorem c9_verbs_bypass_cache_witness :
    post "json"
        { store := [("/a", ⟨0, 0⟩)], fetchCount := 1, nextPromise := 1,
          settled := [], getCalls := 1 } =
      Except.ok (1,
        { store := [("/a", ⟨0, 0⟩)], fetchCount := 2, nextPromise := 2,
          settled := [], getCalls := 1 }) ∧
    delete "json"
        { store := [("/a", ⟨0, 0⟩)], fetchCount := 1, nextPromise := 1,
          settled := [], getCalls := 1 } =
      Except.ok (1,
        { store := [("/a", ⟨0, 0⟩)], fetchCount := 2, nextPromise := 2,
          settled := [], getCalls := 1 }) :=
  ⟨(c9_verbs_bypass_cache "json"
      { store := [("/a", ⟨0, 0⟩)], fetchCount := 1, nextPromise := 1,
        settled := [], getCalls := 1 } (by decide)).1,
   (c9_verbs_bypass_cache "json"
      { store := [("/a", ⟨0, 0⟩)], fetchCount := 1, nextPromise := 1,
        settled := [], getCalls := 1 } (by decide)).2.2.2.1⟩

/-- C10: wildcard-key hazard. Whenever the store has no servable entry for
the literal key `"*"`, a `get` (or `memo`) for `"*"` goes through
`setCache`, whose leading `invalidate("*")` clears the whole store; the
result is a store holding exactly the single freshly inserted `"*"`
entry. -/
theorem c10_wildcard_key_hazard (cfg : Config) (isServer : Bool) (now : Int)
    (rt : String) (ct? : Option Int) (s : APIState)
    (hv : validate rt = true)
    (hns : shouldUseCache isServer now s.store "*" (ct?.getD cfg.defaultCacheTime) = false) :
    get cfg isServer now "*" rt ct? s =
      Except.ok (some s.nextPromise,
        { s with
            store := [("*", ⟨s.nextPromise, now⟩)]
            fetchCount := s.fetchCount + 1
            nextPromise := s.nextPromise + 1
            getCalls := s.getCalls + 1 }) ∧
    (memo cfg isServer now "*" ct? s).2.store = [("*", ⟨s.nextPromise, now⟩)] := by
  constructor
  · have h := get_miss cfg isServer now "*" rt ct? s hv hns
    rw [h, setCache_star]
  · simp only [memo, hns, Bool.false_eq_true, if_false]
    exact setCache_star cfg now s.nextPromise s.store

/-- C10 witness: a client-context `get("*")` over a store holding `/a` and
`/b` wipes both and leaves only the wildcard entry. -/
theorem c10_wildcard_key_hazard_witness :
    get { defaultCacheTime := 0, maxCacheSize := 200 } false 3 "*" "json" none
        { store := [("/a", ⟨0, 0⟩), ("/b", ⟨1, 0⟩)], fetchCount := 2,
          nextPromise := 2, settled := [], getCalls := 2 } =
      Except.ok (some 2,
        { store := [("*", ⟨2, 3⟩)], fetchCount := 3, nextPromise := 3,
          settled := [], getCalls := 3 }) :=
  (c10_wildcard_key_hazard { defaultCacheTime := 0, maxCacheSize := 200 }
    false 3 "json" none
    { store := [("/a", ⟨0, 0⟩), ("/b", ⟨1, 0⟩)], fetchCount := 2,
      nextPromise := 2, settled := [], getCalls := 2 }
    (by decide) (by decide)).1

end NPC
